import Mathlib

/-!
Verification of the identifier-derivation and caching logic of the
FusionDataUtils add-in (files FusionDataUtils.py and
fusion_data_api_id_utils.py), as a shallow embedding.

Python dicts are modelled as insertion-ordered association lists with
unique keys: lookup returns the first (hence only) binding, assignment
replaces an existing binding in place and otherwise appends, matching
CPython dict semantics.  Strings are Lean strings; the bytes produced by
str.encode("ascii") are modelled as the list of character code points
(the theorems that need it carry an ASCII hypothesis, since encode
raises on non-ASCII input).
-/

namespace FDU

/-- Lookup in an insertion-ordered association list: d.get(k).  With unique
keys (the only states Python dicts can be in) this is the dict lookup. -/
def lookupD {β : Type} : List (String × β) → String → Option β
  | [], _ => none
  | (k, v) :: rest, key => if k = key then some v else lookupD rest key

/-- Dict assignment d[k] = v: replace the binding in place if the key is
present, otherwise append the new binding at the end. -/
def dictSet {β : Type} : List (String × β) → String → β → List (String × β)
  | [], k, v => [(k, v)]
  | (k1, v1) :: rest, k, v =>
      if k1 = k then (k, v) :: rest else (k1, v1) :: dictSet rest k v

/-- Mutate the value stored under a key in place (a no-op when the key is
absent; every call site in the embedded code is guarded by
_ensure_file_version_in_results so the key is always present, where Python
would otherwise raise KeyError). -/
def modifyEntry {β : Type} : List (String × β) → String → (β → β) → List (String × β)
  | [], _, _ => []
  | (k1, v1) :: rest, k, f =>
      if k1 = k then (k1, f v1) :: rest else (k1, v1) :: modifyEntry rest k f

/-! The PIM payload data model.

A raw PIM payload (the parsed form of dataFile.assemblyPIMData()) maps
space ids to values which are either not dicts (skipped by the code) or
space dicts.  Of a space dict the code reads the optional modelAsset
(with its id and the f3dComponentId and wipLineageUrn attribute values)
and the optional snapshotId; a space is modelled by exactly those fields,
and the Python truthiness test on a space holds when at least one of the
read fields is present. -/

structure ModelAsset where
  id : String
  f3dComponentId : String
  wipLineageUrn : String
deriving DecidableEq, Repr

structure Space where
  modelAsset : Option ModelAsset
  snapshotId : Option String
deriving DecidableEq, Repr

inductive PimValue where
  | nonDict
  | space (s : Space)
deriving DecidableEq, Repr

/-- Truthiness of a space dict restricted to the fields the code reads. -/
def space_truthy (s : Space) : Bool :=
  s.modelAsset.isSome || s.snapshotId.isSome

/-- Embeds _get_asset_id: space.get('modelAsset', False) and return its id
when truthy, else the empty string. -/
def _get_asset_id (space : Space) : String :=
  match space.modelAsset with
  | some model_asset => model_asset.id
  | none => ""

/-- Embeds _get_snapshot_id: space.get('snapshotId', False); an absent or
empty (hence falsy) snapshot id yields the empty string. -/
def _get_snapshot_id (space : Space) : String :=
  match space.snapshotId with
  | some snapshot_id => if snapshot_id = "" then "" else snapshot_id
  | none => ""

/-- One assignment step of _make_structured_pim_data: ensure a group dict
exists for the lineage id (Python replaces a falsy, i.e. missing or empty,
group by a fresh dict) and assign the space under the f3d component id. -/
def pimInsert (pim : List (String × List (String × Space)))
    (lin cid : String) (s : Space) : List (String × List (String × Space)) :=
  let group := (lookupD pim lin).getD []
  dictSet pim lin (dictSet group cid s)

def _make_structured_pim_data_aux :
    List (String × PimValue) → List (String × List (String × Space)) →
    List (String × List (String × Space))
  | [], pim => pim
  | (_, PimValue.nonDict) :: rest, pim => _make_structured_pim_data_aux rest pim
  | (_, PimValue.space s) :: rest, pim =>
      match s.modelAsset with
      | none => _make_structured_pim_data_aux rest pim
      | some model_asset =>
          _make_structured_pim_data_aux rest
            (pimInsert pim model_asset.wipLineageUrn model_asset.f3dComponentId s)

/-- Embeds _make_structured_pim_data: fold over the raw payload items in
order, keeping only dict entries carrying a truthy modelAsset, and group
the spaces by wipLineageUrn, keyed inside the group by f3dComponentId. -/
def _make_structured_pim_data (raw : List (String × PimValue)) :
    List (String × List (String × Space)) :=
  _make_structured_pim_data_aux raw []

/-- The group of spaces stored for one lineage id (pim_data.get(lineage),
with a missing group read as the empty dict). -/
def pimGroup (pim : List (String × List (String × Space))) (lin : String) :
    List (String × Space) :=
  (lookupD pim lin).getD []

/-! URL-safe base64, the codec used by _make_url_safe_base64_encoded_string.
The encoder embeds base64.urlsafe_b64encode from the Python standard
library (RFC 4648 with the URL-safe alphabet); bytes are Nats below 256. -/

def b64AlphabetChars : List Char :=
  "ABCDEFGHIJKLMNOPQRSTUVWXYZabcdefghijklmnopqrstuvwxyz0123456789-_".data

def b64Char (n : Nat) : Char := b64AlphabetChars.getD n 'A'

/-- RFC 4648 encoding with '=' padding, three input bytes per four output
characters, exactly what base64.urlsafe_b64encode produces. -/
def b64EncodeBytes : List Nat → List Char
  | [] => []
  | [b1] => [b64Char (b1 / 4), b64Char (b1 % 4 * 16), '=', '=']
  | [b1, b2] =>
      [b64Char (b1 / 4), b64Char (b1 % 4 * 16 + b2 / 16), b64Char (b2 % 16 * 4), '=']
  | b1 :: b2 :: b3 :: rest =>
      b64Char (b1 / 4) :: b64Char (b1 % 4 * 16 + b2 / 16) ::
      b64Char (b2 % 16 * 4 + b3 / 64) :: b64Char (b3 % 64) :: b64EncodeBytes rest

/-- Embeds str.rstrip("="): drop every trailing '=' character. -/
def rstripPad : List Char → List Char
  | [] => []
  | c :: cs =>
      let rest := rstripPad cs
      if rest = [] ∧ c = '=' then [] else c :: rest

/-- Embeds _make_url_safe_base64_encoded_string: ASCII-encode the string,
base64-encode with the URL-safe alphabet, decode back to text and strip
the trailing pad characters.  The byte view of an ASCII string is its
list of code points. -/
def _make_url_safe_base64_encoded_string (string : String) : String :=
  String.mk (rstripPad (b64EncodeBytes (string.data.map Char.toNat)))

/-- The padding-free base64 encoding, used to characterise the output of
the stripping encoder. -/
def b64StrippedEncode : List Nat → List Char
  | [] => []
  | [b1] => [b64Char (b1 / 4), b64Char (b1 % 4 * 16)]
  | [b1, b2] =>
      [b64Char (b1 / 4), b64Char (b1 % 4 * 16 + b2 / 16), b64Char (b2 % 16 * 4)]
  | b1 :: b2 :: b3 :: rest =>
      b64Char (b1 / 4) :: b64Char (b1 % 4 * 16 + b2 / 16) ::
      b64Char (b2 % 16 * 4 + b3 / 64) :: b64Char (b3 % 64) :: b64StrippedEncode rest

def charIndex (c : Char) : List Char → Option Nat
  | [] => none
  | x :: xs => if x = c then some 0 else (charIndex c xs).map (· + 1)

def b64DecodeChar (c : Char) : Option Nat := charIndex c b64AlphabetChars

/-- Reference URL-safe base64 decoder (RFC 4648): four characters per
group, a group ending in one or two '=' pad characters closes the input
and yields two or one bytes. -/
def b64DecodeBytes : List Char → Option (List Nat)
  | [] => some []
  | c1 :: c2 :: c3 :: c4 :: rest =>
      match b64DecodeChar c1, b64DecodeChar c2 with
      | some s1, some s2 =>
          if c3 = '=' then
            if c4 = '=' ∧ rest = [] then some [s1 * 4 + s2 / 16] else none
          else
            match b64DecodeChar c3 with
            | some s3 =>
                if c4 = '=' then
                  if rest = [] then some [s1 * 4 + s2 / 16, s2 % 16 * 16 + s3 / 4]
                  else none
                else
                  match b64DecodeChar c4, b64DecodeBytes rest with
                  | some s4, some bs =>
                      some ((s1 * 4 + s2 / 16) :: (s2 % 16 * 16 + s3 / 4) ::
                            (s3 % 4 * 64 + s4) :: bs)
                  | _, _ => none
            | none => none
      | _, _ => none
  | _ => none

/-- Re-append the '=' padding a stripped base64 text needs to reach a
multiple of four characters. -/
def padB64Chars (xs : List Char) : List Char :=
  xs ++ List.replicate ((4 - xs.length % 4) % 4) '='

def padB64String (s : String) : String := String.mk (padB64Chars s.data)

/-- Decode a base64 text back to the ASCII string it encodes. -/
def b64DecodeToString (s : String) : Option String :=
  (b64DecodeBytes s.data).map fun bs => String.mk (bs.map Char.ofNat)

/-- Embeds _make_fusion_data_component_id: resolve the component id in the
group for its parent file and encode comp~{collection_id}~{asset_id}~~,
falling back to the sentinel when the lookup fails or is falsy. -/
def _make_fusion_data_component_id (collection_id component_id : String)
    (pim_data : List (String × Space)) : String :=
  match lookupD pim_data component_id with
  | some space =>
      if space_truthy space then
        _make_url_safe_base64_encoded_string
          ("comp~" ++ collection_id ++ "~" ++ _get_asset_id space ++ "~~")
      else "Failed to get ID"
  | none => "Failed to get ID"

/-- Embeds _make_fusion_data_component_version_id: resolve the component id
in the group for its parent file and encode
comp~{collection_id}~{asset_id}~{snapshot_id}, falling back to the sentinel
when the lookup fails or is falsy. -/
def _make_fusion_data_component_version_id (collection_id component_id : String)
    (pim_data : List (String × Space)) : String :=
  match lookupD pim_data component_id with
  | some space =>
      if space_truthy space then
        _make_url_safe_base64_encoded_string
          ("comp~" ++ collection_id ++ "~" ++ _get_asset_id space ++ "~" ++
            _get_snapshot_id space)
      else "Failed to get ID"
  | none => "Failed to get ID"

/-- Whether a raw payload value is a space whose modelAsset matches the
given lineage id and f3d component id; returns the matching space. -/
def spaceMatches (lin cid : String) : PimValue → Option Space
  | PimValue.space s =>
      match s.modelAsset with
      | some model_asset =>
          if model_asset.wipLineageUrn = lin ∧ model_asset.f3dComponentId = cid then
            some s
          else none
      | none => none
  | PimValue.nonDict => none

/-- The last space in the raw payload matching the lineage and component
id: Python dict assignment lets later payload entries win. -/
def lastMatchingSpace : List (String × PimValue) → String → String → Option Space
  | [], _, _ => none
  | (_, v) :: rest, lin, cid =>
      match lastMatchingSpace rest lin cid with
      | some s => some s
      | none => spaceMatches lin cid v

def hasMatchingEntry (raw : List (String × PimValue)) (lin cid : String) : Bool :=
  raw.any fun p => (spaceMatches lin cid p.2).isSome

/-- Lookup of a component id inside the group a structured payload keeps
for a lineage id. -/
def structuredLookup (pim : List (String × List (String × Space)))
    (lin cid : String) : Option Space :=
  lookupD (pimGroup pim lin) cid


/-! Configuration constants and cache file paths. -/

def CACHE_RESULTS : Bool := true

def BASE_FOLDER_NAME : String := "FusionDataUtils"

def JSON_OUTPUT_FOLDER_NAME : String := "json_output"

/-- os.path.join(os.path.expanduser(tilde), BASE_FOLDER_NAME): POSIX join
of the user's home directory with the base folder name. -/
def base_folder (home : String) : String := home ++ "/" ++ BASE_FOLDER_NAME

/-- os.path.join(base_folder, JSON_OUTPUT_FOLDER_NAME, ''): the output
directory path, carrying its trailing separator. -/
def json_output_folder (home : String) : String :=
  base_folder home ++ "/" ++ JSON_OUTPUT_FOLDER_NAME ++ "/"

/-- Embeds version_id.replace(':', '~'): replacing a single-character
needle substitutes character by character. -/
def replaceColonByTilde (version_id : String) : String :=
  String.mk (version_id.data.map fun c => if c = ':' then '~' else c)

/-- Embeds _make_design_version_file_name: os.path.join of a directory
that ends in the separator with the substituted file name concatenates
them. -/
def _make_design_version_file_name (home version_id : String) : String :=
  json_output_folder home ++ replaceColonByTilde version_id ++ ".json"

/-! The host object model, restricted to the fields the code reads, and
the record shapes and mutable state of the cache. -/

/-- A host DataFile; folderId, projectId and hubId stand for the live
values of data_file.parentFolder.id, data_file.parentProject.id and
data_file.parentProject.parentHub.id. -/
structure DataFile where
  name : String
  id : String
  versionId : String
  folderId : String
  projectId : String
  hubId : String
deriving DecidableEq, Repr

/-- A host Component together with
component.parentDesign.parentDocument.dataFile. -/
structure Component where
  name : String
  id : String
  parentFile : DataFile
deriving DecidableEq, Repr

/-- A host Design: its document's data file and name, the recursive
design.allComponents list, and the parsed assemblyPIMData payload of its
data file. -/
structure Design where
  dataFile : DataFile
  parentDocumentName : String
  allComponents : List Component
  rawPim : List (String × PimValue)
deriving DecidableEq, Repr

structure ComponentInfo where
  Name : String
  f3dComponentId : String
  ComponentId : String
  ComponentVersionId : String
deriving DecidableEq, Repr

structure DesignInfo where
  Name : String
  DesignFileId : String
  DesignFileVersionId : String
  FolderId : String
  ProjectId : String
  HubId : String
  Components : List ComponentInfo
  AllComponents : List ComponentInfo
deriving DecidableEq, Repr

/-- The mutable state: the process-wide results dict keyed by version id,
the on-disk JSON cache keyed by file path, and the collection_id global.
gen_calls and fresh_computes are ghost counters recording how often
_generate_design_info was entered and how often its fresh recomputation
branch ran; nothing in the embedded code reads them. -/
structure CacheState where
  results : List (String × DesignInfo)
  disk : List (String × DesignInfo)
  collection_id : String
  gen_calls : Nat
  fresh_computes : Nat
deriving DecidableEq, Repr

def _make_design_info (data_file : DataFile) : DesignInfo :=
  { Name := data_file.name,
    DesignFileId := data_file.id,
    DesignFileVersionId := data_file.versionId,
    FolderId := data_file.folderId,
    ProjectId := data_file.projectId,
    HubId := data_file.hubId,
    Components := [],
    AllComponents := [] }

/-- Embeds _get_fresh_file_data_properties: the live folder, project and
hub ids of the data file. -/
def _get_fresh_file_data_properties (data_file : DataFile) :
    String × String × String :=
  (data_file.folderId, data_file.projectId, data_file.hubId)

/-- Embeds design_version_info.update(fresh_file_data): the update dict
holds exactly the keys FolderId, ProjectId and HubId, so only those are
overwritten. -/
def updateFreshProperties (info : DesignInfo) (fresh : String × String × String) :
    DesignInfo :=
  { info with FolderId := fresh.1, ProjectId := fresh.2.1, HubId := fresh.2.2 }

/-- Embeds _write_one_json_object: serialise the record to the per-version
file path (overwriting any file already there). -/
def _write_one_json_object (home : String) (design_info : DesignInfo)
    (version_id : String) (st : CacheState) : CacheState :=
  { st with disk :=
      dictSet st.disk (_make_design_version_file_name home version_id) design_info }

/-- Embeds _write_results: write every entry of the results dict in
insertion order. -/
def _write_results (home : String) (st : CacheState) : CacheState :=
  st.results.foldl (fun acc p => _write_one_json_object home p.2 p.1 acc) st

/-- Embeds _read_versions_file: load the record stored at the per-version
file path, if that file exists. -/
def _read_versions_file (home version_id : String) (st : CacheState) :
    Option DesignInfo :=
  lookupD st.disk (_make_design_version_file_name home version_id)

/-- Embeds _refresh_design_info_result: overwrite the fresh file
properties on the record, store it under the version id and rewrite its
disk file. -/
def _refresh_design_info_result (home version_id : String)
    (design_version_info : DesignInfo) (data_file : DataFile) (st : CacheState) :
    CacheState :=
  let fresh_file_data := _get_fresh_file_data_properties data_file
  let updated := updateFreshProperties design_version_info fresh_file_data
  let st1 := { st with results := dictSet st.results version_id updated }
  _write_one_json_object home updated version_id st1

/-- Embeds _ensure_file_version_in_results (a stored record is a dict with
eight keys, hence always truthy, so the falsy test is presence). -/
def _ensure_file_version_in_results (data_file : DataFile) (st : CacheState) :
    CacheState :=
  if (lookupD st.results data_file.versionId).isSome then st
  else
    let new_results := dictSet st.results data_file.versionId (_make_design_info data_file)
    { st with results := new_results }

def _make_component_info (component : Component)
    (pim_data_for_component_parent_file : List (String × Space))
    (collection_id : String) : ComponentInfo :=
  { Name := component.name,
    f3dComponentId := component.id,
    ComponentId := (_make_fusion_data_component_id collection_id component.id
      pim_data_for_component_parent_file),
    ComponentVersionId := (_make_fusion_data_component_version_id collection_id
      component.id pim_data_for_component_parent_file) }

/-- One iteration of the loop in _generate_component_info_for_design: a
component contributes a record only when its parent file's PIM group is
truthy (present and nonempty). -/
def _generate_component_info_step (design_version_id : String)
    (pim_data : List (String × List (String × Space)))
    (st : CacheState) (component : Component) : CacheState :=
  let component_data_file := component.parentFile
  let component_lineage_id := component_data_file.id
  let component_version_id := component_data_file.versionId
  let st1 := _ensure_file_version_in_results component_data_file st
  let group := pimGroup pim_data component_lineage_id
  if group = [] then st1
  else
    let component_info := _make_component_info component group st1.collection_id
    let comp_results := modifyEntry st1.results component_version_id
      (fun d => { d with Components := d.Components ++ [component_info] })
    let st2 := { st1 with results := comp_results }
    let all_results := modifyEntry st2.results design_version_id
      (fun d => { d with AllComponents := d.AllComponents ++ [component_info] })
    { st2 with results := all_results }

def _generate_component_info_for_design (design_version_id : String)
    (design : Design) (pim_data : List (String × List (String × Space)))
    (st : CacheState) : CacheState :=
  design.allComponents.foldl
    (_generate_component_info_step design_version_id pim_data) st

/-- Embeds _generate_design_info; activeColl is the host's live
app.data.activeSpaceCollectionId, re-read into the collection_id global
on the fresh recomputation path. -/
def _generate_design_info (home activeColl : String) (design : Design)
    (st : CacheState) : CacheState :=
  let design_data_file := design.dataFile
  let design_version_id := design_data_file.versionId
  let st0 := { st with gen_calls := st.gen_calls + 1 }
  match (if CACHE_RESULTS then _read_versions_file home design_version_id st0
         else none) with
  | some disk_cache_design_version =>
      _refresh_design_info_result home design_version_id
        disk_cache_design_version design_data_file st0
  | none =>
      let st1 := { st0 with collection_id := activeColl, fresh_computes := st0.fresh_computes + 1 }
      let st2 := _ensure_file_version_in_results design_data_file st1
      let structured_pim_data := _make_structured_pim_data design.rawPim
      let st3 := _generate_component_info_for_design design_version_id design
        structured_pim_data st2
      if CACHE_RESULTS then _write_results home st3 else st3

/-- Embeds _get_component_info_from_results_global: the first stored
Components entry whose f3dComponentId equals the component's id. -/
def _get_component_info_from_results_global (version_id : String)
    (component : Component) (st : CacheState) : Option ComponentInfo :=
  match lookupD st.results version_id with
  | some info => (info.Components.filter fun ci => ci.f3dComponentId = component.id).head?
  | none => none

/-- Embeds get_fusion_data_ids_for_component; component_parent_design is
component.parentDesign, whose document data file supplies the version id.
A raised RuntimeError is modelled as the error case of Except. -/
def get_fusion_data_ids_for_component (home activeColl : String)
    (component_parent_design : Design) (component : Component) (st : CacheState) :
    Except String ComponentInfo × CacheState :=
  let data_file := component_parent_design.dataFile
  let version_id := data_file.versionId
  match _get_component_info_from_results_global version_id component st with
  | some component_result => (Except.ok component_result, st)
  | none =>
      let st1 := _generate_design_info home activeColl component_parent_design st
      match _get_component_info_from_results_global version_id component st1 with
      | some component_result => (Except.ok component_result, st1)
      | none =>
          (Except.error ("Could not get Fusion Data API IDs for this Component: " ++
            component.name), st1)

/-- Embeds get_fusion_data_ids_for_design.  On a memory hit the code
returns results[version_id] right after the refresh stored it; the
unreachable KeyError of that subscript is kept as an error case. -/
def get_fusion_data_ids_for_design (home activeColl : String) (design : Design)
    (st : CacheState) : Except String DesignInfo × CacheState :=
  let design_data_file := design.dataFile
  let design_version_id := design_data_file.versionId
  match lookupD st.results design_version_id with
  | some mem_cache_design_version =>
      let st1 := _refresh_design_info_result home design_version_id
        mem_cache_design_version design_data_file st
      match lookupD st1.results design_version_id with
      | some r => (Except.ok r, st1)
      | none => (Except.error "KeyError", st1)
  | none =>
      let st1 := _generate_design_info home activeColl design st
      match lookupD st1.results design_version_id with
      | some r => (Except.ok r, st1)
      | none =>
          (Except.error ("Could not get Fusion Data API IDs for: " ++
            design.parentDocumentName), st1)

/-- The entity kinds ui.selectEntity can hand back to run. -/
inductive SelectionEntity where
  | componentEntity (component : Component) (parent : Design)
  | occurrenceEntity (component : Component) (parent : Design)
  | otherEntity
deriving Repr

inductive RunOutcome where
  | success (design_result : DesignInfo) (component_result : ComponentInfo)
  | messageBox (msg : String)
deriving DecidableEq, Repr

/-- Embeds run from FusionDataUtils.py: the design ids for the active
document, then the ids of the selected component or occurrence; any
exception raised inside the try block is caught and surfaced as a
blocking message box whose text carries the failure information
(traceback.format_exc() contains the exception message). -/
def run (home activeColl : String) (active_design : Design)
    (selection : SelectionEntity) (st : CacheState) : RunOutcome × CacheState :=
  match get_fusion_data_ids_for_design home activeColl active_design st with
  | (Except.error e, st1) => (RunOutcome.messageBox ("Failed:\n" ++ e), st1)
  | (Except.ok design_results, st1) =>
      match selection with
      | SelectionEntity.otherEntity =>
          (RunOutcome.messageBox ("Failed:\n" ++ "Selection Type was invalid"), st1)
      | SelectionEntity.componentEntity component parent =>
          match get_fusion_data_ids_for_component home activeColl parent component st1 with
          | (Except.error e, st2) => (RunOutcome.messageBox ("Failed:\n" ++ e), st2)
          | (Except.ok component_results, st2) =>
              (RunOutcome.success design_results component_results, st2)
      | SelectionEntity.occurrenceEntity component parent =>
          match get_fusion_data_ids_for_component home activeColl parent component st1 with
          | (Except.error e, st2) => (RunOutcome.messageBox ("Failed:\n" ++ e), st2)
          | (Except.ok component_results, st2) =>
              (RunOutcome.success design_results component_results, st2)

/-! Concrete sample host objects, used by witnesses and counterexamples. -/

def sampleAsset : ModelAsset :=
  { id := "asset1", f3dComponentId := "cx", wipLineageUrn := "lin1" }

def sampleSpace : Space :=
  { modelAsset := some sampleAsset, snapshotId := some "snap1" }

def sampleRaw : List (String × PimValue) := [("sp1", PimValue.space sampleSpace)]

def sampleFile : DataFile :=
  { name := "f", id := "lin1", versionId := "v:1", folderId := "fo",
    projectId := "pr", hubId := "hu" }

def sampleComponent : Component :=
  { name := "Comp1", id := "cx", parentFile := sampleFile }

/-- A design whose payload has no model-asset entry at all, so its
component cannot be resolved. -/
def sampleDesignNoPim : Design :=
  { dataFile := sampleFile, parentDocumentName := "doc",
    allComponents := [sampleComponent], rawPim := [] }

def emptyState : CacheState :=
  { results := [], disk := [], collection_id := "", gen_calls := 0,
    fresh_computes := 0 }

def sampleDesignInfo : DesignInfo := _make_design_info sampleFile

/-- The state entering the fresh recomputation branch of
_generate_design_info: the ghost counters bumped and the collection_id
global re-read from the host. -/
def preGenState (activeColl : String) (st : CacheState) : CacheState :=
  { st with gen_calls := st.gen_calls + 1, collection_id := activeColl, fresh_computes := st.fresh_computes + 1 }

theorem lookupD_dictSet_self {β : Type} (m : List (String × β)) (k : String) (v : β) :
    lookupD (dictSet m k v) k = some v := by
  induction m with
  | nil => simp [dictSet, lookupD]
  | cons p rest ih =>
      obtain ⟨k1, v1⟩ := p
      by_cases h : k1 = k
      · simp [dictSet, h, lookupD]
      · simp [dictSet, h, lookupD, ih]

theorem lookupD_dictSet_ne {β : Type} (m : List (String × β)) (k k' : String) (v : β)
    (h : k' ≠ k) : lookupD (dictSet m k v) k' = lookupD m k' := by
  have h2 : ¬ (k = k') := fun hh => h hh.symm
  induction m with
  | nil => simp [dictSet, lookupD, h2]
  | cons p rest ih =>
      obtain ⟨k1, v1⟩ := p
      by_cases h1 : k1 = k
      · subst h1
        simp [dictSet, lookupD, h2]
      · by_cases h3 : k1 = k'
        · simp [dictSet, lookupD, h1, h3, h]
        · simp [dictSet, lookupD, h1, h3, ih]

theorem lookupD_modifyEntry_self {β : Type} (m : List (String × β)) (k : String)
    (f : β → β) : lookupD (modifyEntry m k f) k = (lookupD m k).map f := by
  induction m with
  | nil => simp [modifyEntry, lookupD]
  | cons p rest ih =>
      obtain ⟨k1, v1⟩ := p
      by_cases h : k1 = k
      · simp [modifyEntry, lookupD, h]
      · simp [modifyEntry, lookupD, h, ih]

theorem lookupD_modifyEntry_ne {β : Type} (m : List (String × β)) (k k' : String)
    (f : β → β) (h : k' ≠ k) :
    lookupD (modifyEntry m k f) k' = lookupD m k' := by
  have h2 : ¬ (k = k') := fun hh => h hh.symm
  induction m with
  | nil => simp [modifyEntry, lookupD]
  | cons p rest ih =>
      obtain ⟨k1, v1⟩ := p
      by_cases h1 : k1 = k
      · subst h1
        simp [modifyEntry, lookupD, h2]
      · by_cases h3 : k1 = k'
        · simp [modifyEntry, lookupD, h1, h3, h]
        · simp [modifyEntry, lookupD, h1, h3, ih]

theorem b64Char_mem (n : Nat) : b64Char n ∈ b64AlphabetChars := by
  by_cases h : n < 64
  · unfold b64Char
    rw [List.getD_eq_getElem?_getD]
    have hlt : n < b64AlphabetChars.length := by
      have : b64AlphabetChars.length = 64 := by decide
      omega
    rw [List.getElem?_eq_getElem hlt]
    exact List.getElem_mem hlt
  · have hn : b64AlphabetChars.length ≤ n := by
      have : b64AlphabetChars.length = 64 := by decide
      omega
    unfold b64Char
    rw [List.getD_eq_getElem?_getD, List.getElem?_eq_none hn]
    decide

theorem b64Char_ne_pad (n : Nat) : b64Char n ≠ '=' := by
  intro h
  have hm := b64Char_mem n
  rw [h] at hm
  revert hm
  decide

theorem b64Char_ne_space (n : Nat) : b64Char n ≠ ' ' := by
  intro h
  have hm := b64Char_mem n
  rw [h] at hm
  revert hm
  decide

theorem mem_b64StrippedEncode :
    ∀ bs : List Nat, ∀ c ∈ b64StrippedEncode bs, ∃ n, c = b64Char n
  | [] => by simp [b64StrippedEncode]
  | [b1] => by
      simp only [b64StrippedEncode, List.mem_cons, List.not_mem_nil, or_false]
      rintro c (h | h) <;> exact ⟨_, h⟩
  | [b1, b2] => by
      simp only [b64StrippedEncode, List.mem_cons, List.not_mem_nil, or_false]
      rintro c (h | h | h) <;> exact ⟨_, h⟩
  | b1 :: b2 :: b3 :: rest => by
      intro c hc
      simp only [b64StrippedEncode, List.mem_cons] at hc
      rcases hc with h | h | h | h | h
      · exact ⟨_, h⟩
      · exact ⟨_, h⟩
      · exact ⟨_, h⟩
      · exact ⟨_, h⟩
      · exact mem_b64StrippedEncode rest c h

theorem rstripPad_append_of_ne_nil (xs ys : List Char) (h : rstripPad ys ≠ []) :
    rstripPad (xs ++ ys) = xs ++ rstripPad ys := by
  induction xs with
  | nil => simp
  | cons c cs ih =>
      show rstripPad (c :: (cs ++ ys)) = c :: (cs ++ rstripPad ys)
      rw [rstripPad, ih]
      have h2 : ¬ (cs ++ rstripPad ys = [] ∧ c = '=') := by
        intro hh
        exact h (List.append_eq_nil.mp hh.1).2
      rw [if_neg h2]

theorem rstripPad_of_no_pad (xs : List Char) (h : ∀ c ∈ xs, c ≠ '=') :
    rstripPad xs = xs := by
  induction xs with
  | nil => rfl
  | cons c cs ih =>
      have hc : c ≠ '=' := h c (by simp)
      have ih2 := ih fun d hd => h d (by simp [hd])
      simp [rstripPad, ih2, hc]

theorem b64StrippedEncode_ne_nil (b : Nat) (bs : List Nat) :
    b64StrippedEncode (b :: bs) ≠ [] := by
  match bs with
  | [] => simp [b64StrippedEncode]
  | [b2] => simp [b64StrippedEncode]
  | b2 :: b3 :: rest => simp [b64StrippedEncode]

theorem rstripPad_b64EncodeBytes :
    ∀ bs : List Nat, rstripPad (b64EncodeBytes bs) = b64StrippedEncode bs
  | [] => rfl
  | [b1] => by
      have h1 := b64Char_ne_pad (b1 / 4)
      have h2 := b64Char_ne_pad (b1 % 4 * 16)
      simp [b64EncodeBytes, b64StrippedEncode, rstripPad, h1, h2]
  | [b1, b2] => by
      have h1 := b64Char_ne_pad (b1 / 4)
      have h2 := b64Char_ne_pad (b1 % 4 * 16 + b2 / 16)
      have h3 := b64Char_ne_pad (b2 % 16 * 4)
      simp [b64EncodeBytes, b64StrippedEncode, rstripPad, h1, h2, h3]
  | b1 :: b2 :: b3 :: rest => by
      have ih := rstripPad_b64EncodeBytes rest
      show rstripPad
          ([b64Char (b1 / 4), b64Char (b1 % 4 * 16 + b2 / 16),
            b64Char (b2 % 16 * 4 + b3 / 64), b64Char (b3 % 64)] ++ b64EncodeBytes rest) =
          [b64Char (b1 / 4), b64Char (b1 % 4 * 16 + b2 / 16),
            b64Char (b2 % 16 * 4 + b3 / 64), b64Char (b3 % 64)] ++ b64StrippedEncode rest
      match rest with
      | [] =>
          simp only [b64EncodeBytes, b64StrippedEncode, List.append_nil]
          exact rstripPad_of_no_pad _ (by
            intro c hc
            simp only [List.mem_cons, List.not_mem_nil, or_false] at hc
            rcases hc with h | h | h | h <;> (subst h; exact b64Char_ne_pad _))
      | r :: rs =>
          rw [rstripPad_append_of_ne_nil _ _ (by rw [ih]; exact b64StrippedEncode_ne_nil r rs), ih]

theorem padB64Chars_append_of_mod (xs ys : List Char) (h : xs.length % 4 = 0) :
    padB64Chars (xs ++ ys) = xs ++ padB64Chars ys := by
  unfold padB64Chars
  rw [List.length_append, List.append_assoc]
  have h2 : (4 - (xs.length + ys.length) % 4) % 4 = (4 - ys.length % 4) % 4 := by omega
  rw [h2]

theorem padB64Chars_b64StrippedEncode :
    ∀ bs : List Nat, padB64Chars (b64StrippedEncode bs) = b64EncodeBytes bs
  | [] => rfl
  | [b1] => rfl
  | [b1, b2] => rfl
  | b1 :: b2 :: b3 :: rest => by
      have ih := padB64Chars_b64StrippedEncode rest
      show padB64Chars
          ([b64Char (b1 / 4), b64Char (b1 % 4 * 16 + b2 / 16),
            b64Char (b2 % 16 * 4 + b3 / 64), b64Char (b3 % 64)] ++ b64StrippedEncode rest) =
          [b64Char (b1 / 4), b64Char (b1 % 4 * 16 + b2 / 16),
            b64Char (b2 % 16 * 4 + b3 / 64), b64Char (b3 % 64)] ++ b64EncodeBytes rest
      rw [padB64Chars_append_of_mod
            [b64Char (b1 / 4), b64Char (b1 % 4 * 16 + b2 / 16),
              b64Char (b2 % 16 * 4 + b3 / 64), b64Char (b3 % 64)]
            (b64StrippedEncode rest) (by simp), ih]

theorem b64DecodeChar_b64Char_bounded :
    ∀ n, n < 64 → b64DecodeChar (b64Char n) = some n := by decide

theorem b64DecodeBytes_b64EncodeBytes :
    ∀ bs : List Nat, (∀ b ∈ bs, b < 256) →
      b64DecodeBytes (b64EncodeBytes bs) = some bs
  | [], _ => rfl
  | [b1], h => by
      have hb1 : b1 < 256 := h b1 (by simp)
      have d1 : b64DecodeChar (b64Char (b1 / 4)) = some (b1 / 4) :=
        b64DecodeChar_b64Char_bounded _ (by omega)
      have d2 : b64DecodeChar (b64Char (b1 % 4 * 16)) = some (b1 % 4 * 16) :=
        b64DecodeChar_b64Char_bounded _ (by omega)
      simp [b64EncodeBytes, b64DecodeBytes, d1, d2]
      omega
  | [b1, b2], h => by
      have hb1 : b1 < 256 := h b1 (by simp)
      have hb2 : b2 < 256 := h b2 (by simp)
      have d1 : b64DecodeChar (b64Char (b1 / 4)) = some (b1 / 4) :=
        b64DecodeChar_b64Char_bounded _ (by omega)
      have d2 : b64DecodeChar (b64Char (b1 % 4 * 16 + b2 / 16)) =
          some (b1 % 4 * 16 + b2 / 16) :=
        b64DecodeChar_b64Char_bounded _ (by omega)
      have d3 : b64DecodeChar (b64Char (b2 % 16 * 4)) = some (b2 % 16 * 4) :=
        b64DecodeChar_b64Char_bounded _ (by omega)
      simp [b64EncodeBytes, b64DecodeBytes, d1, d2, d3, b64Char_ne_pad]
      constructor
      · omega
      · omega
  | [b1, b2, b3], h => by
      have hb1 : b1 < 256 := h b1 (by simp)
      have hb2 : b2 < 256 := h b2 (by simp)
      have hb3 : b3 < 256 := h b3 (by simp)
      have d1 : b64DecodeChar (b64Char (b1 / 4)) = some (b1 / 4) :=
        b64DecodeChar_b64Char_bounded _ (by omega)
      have d2 : b64DecodeChar (b64Char (b1 % 4 * 16 + b2 / 16)) =
          some (b1 % 4 * 16 + b2 / 16) :=
        b64DecodeChar_b64Char_bounded _ (by omega)
      have d3 : b64DecodeChar (b64Char (b2 % 16 * 4 + b3 / 64)) =
          some (b2 % 16 * 4 + b3 / 64) :=
        b64DecodeChar_b64Char_bounded _ (by omega)
      have d4 : b64DecodeChar (b64Char (b3 % 64)) = some (b3 % 64) :=
        b64DecodeChar_b64Char_bounded _ (by omega)
      simp [b64EncodeBytes, b64DecodeBytes, d1, d2, d3, d4, b64Char_ne_pad]
      refine ⟨by omega, by omega, by omega⟩
  | b1 :: b2 :: b3 :: b4 :: bs, h => by
      have hb1 : b1 < 256 := h b1 (by simp)
      have hb2 : b2 < 256 := h b2 (by simp)
      have hb3 : b3 < 256 := h b3 (by simp)
      have d1 : b64DecodeChar (b64Char (b1 / 4)) = some (b1 / 4) :=
        b64DecodeChar_b64Char_bounded _ (by omega)
      have d2 : b64DecodeChar (b64Char (b1 % 4 * 16 + b2 / 16)) =
          some (b1 % 4 * 16 + b2 / 16) :=
        b64DecodeChar_b64Char_bounded _ (by omega)
      have d3 : b64DecodeChar (b64Char (b2 % 16 * 4 + b3 / 64)) =
          some (b2 % 16 * 4 + b3 / 64) :=
        b64DecodeChar_b64Char_bounded _ (by omega)
      have d4 : b64DecodeChar (b64Char (b3 % 64)) = some (b3 % 64) :=
        b64DecodeChar_b64Char_bounded _ (by omega)
      have ih := b64DecodeBytes_b64EncodeBytes (b4 :: bs)
        (fun b hb => h b (by simp only [List.mem_cons] at hb ⊢; tauto))
      simp [b64EncodeBytes, b64DecodeBytes, d1, d2, d3, d4, ih, b64Char_ne_pad]
      refine ⟨by omega, by omega, by omega⟩

/-- The encoder never returns the sentinel: its output has only base64
alphabet characters, while the sentinel contains spaces. -/
theorem encoded_ne_sentinel (s : String) :
    _make_url_safe_base64_encoded_string s ≠ "Failed to get ID" := by
  intro h
  unfold _make_url_safe_base64_encoded_string at h
  have hmem : ' ' ∈ rstripPad (b64EncodeBytes (s.data.map Char.toNat)) := by
    have hd := congrArg String.data h
    rw [show (String.mk (rstripPad (b64EncodeBytes (s.data.map Char.toNat)))).data =
        rstripPad (b64EncodeBytes (s.data.map Char.toNat)) from rfl] at hd
    rw [hd]
    decide
  rw [rstripPad_b64EncodeBytes] at hmem
  obtain ⟨n, hn⟩ := mem_b64StrippedEncode _ ' ' hmem
  exact b64Char_ne_space n hn.symm

theorem structuredLookup_pimInsert_self (pim : List (String × List (String × Space)))
    (lin cid : String) (s : Space) :
    structuredLookup (pimInsert pim lin cid s) lin cid = some s := by
  unfold structuredLookup pimGroup pimInsert
  rw [lookupD_dictSet_self]
  exact lookupD_dictSet_self _ cid s

theorem structuredLookup_pimInsert_ne (pim : List (String × List (String × Space)))
    (lin cid lin' cid' : String) (s : Space) (h : ¬ (lin' = lin ∧ cid' = cid)) :
    structuredLookup (pimInsert pim lin' cid' s) lin cid = structuredLookup pim lin cid := by
  unfold structuredLookup pimGroup pimInsert
  by_cases hl : lin' = lin
  · subst hl
    rw [lookupD_dictSet_self]
    have hc : cid ≠ cid' := by
      intro hh
      exact h ⟨rfl, hh.symm⟩
    simp only [Option.getD_some]
    rw [lookupD_dictSet_ne _ _ _ _ hc]
  · rw [lookupD_dictSet_ne _ _ _ _ (fun hh => hl hh.symm)]

theorem structuredLookup_aux (raw : List (String × PimValue)) :
    ∀ (pim : List (String × List (String × Space))) (lin cid : String),
    structuredLookup (_make_structured_pim_data_aux raw pim) lin cid =
      match lastMatchingSpace raw lin cid with
      | some s => some s
      | none => structuredLookup pim lin cid := by
  induction raw with
  | nil => intro pim lin cid; rfl
  | cons p rest ih =>
      intro pim lin cid
      obtain ⟨sid, v⟩ := p
      match v with
      | PimValue.nonDict =>
          rw [_make_structured_pim_data_aux, ih, lastMatchingSpace]
          cases lastMatchingSpace rest lin cid <;> rfl
      | PimValue.space s =>
          match hma : s.modelAsset with
          | none =>
              rw [_make_structured_pim_data_aux]
              rw [hma, ih, lastMatchingSpace]
              cases lastMatchingSpace rest lin cid with
              | some t => rfl
              | none => simp [spaceMatches, hma]
          | some model_asset =>
              rw [_make_structured_pim_data_aux]
              rw [hma, ih, lastMatchingSpace]
              cases hl : lastMatchingSpace rest lin cid with
              | some t => rfl
              | none =>
                  simp only [spaceMatches, hma]
                  by_cases hcond : model_asset.wipLineageUrn = lin ∧
                      model_asset.f3dComponentId = cid
                  · rw [if_pos hcond, hcond.1, hcond.2]
                    exact structuredLookup_pimInsert_self pim lin cid s
                  · rw [if_neg hcond]
                    exact structuredLookup_pimInsert_ne pim lin cid _ _ s hcond

/-- The structured payload resolves a (lineage id, component id) pair to
the last raw payload space matching it. -/
theorem structuredLookup_make (raw : List (String × PimValue)) (lin cid : String) :
    structuredLookup (_make_structured_pim_data raw) lin cid =
      lastMatchingSpace raw lin cid := by
  unfold _make_structured_pim_data
  rw [structuredLookup_aux]
  cases lastMatchingSpace raw lin cid <;> rfl

theorem lastMatchingSpace_sound :
    ∀ (raw : List (String × PimValue)) (lin cid : String) (s : Space),
    lastMatchingSpace raw lin cid = some s →
    ∃ sid model_asset, (sid, PimValue.space s) ∈ raw ∧
      s.modelAsset = some model_asset ∧
      model_asset.wipLineageUrn = lin ∧ model_asset.f3dComponentId = cid
  | [], _, _, _ => by intro h; exact absurd h (by simp [lastMatchingSpace])
  | (sid, v) :: rest, lin, cid, s => by
      intro h
      rw [lastMatchingSpace] at h
      cases hl : lastMatchingSpace rest lin cid with
      | some t =>
          rw [hl] at h
          have h' : some t = some s := h
          obtain rfl : t = s := by injection h'
          obtain ⟨sid', ma, hmem, hma, h1, h2⟩ := lastMatchingSpace_sound rest lin cid t hl
          exact ⟨sid', ma, List.mem_cons_of_mem _ hmem, hma, h1, h2⟩
      | none =>
          rw [hl] at h
          have h' : spaceMatches lin cid v = some s := h
          match v with
          | PimValue.nonDict => exact absurd h' (by simp [spaceMatches])
          | PimValue.space t =>
              simp only [spaceMatches] at h'
              cases hma : t.modelAsset with
              | none => rw [hma] at h'; exact absurd h' (by simp)
              | some ma =>
                  rw [hma] at h'
                  have h2 : (if ma.wipLineageUrn = lin ∧ ma.f3dComponentId = cid
                      then some t else none) = some s := h'
                  by_cases hcond : ma.wipLineageUrn = lin ∧ ma.f3dComponentId = cid
                  · rw [if_pos hcond] at h2
                    obtain rfl : t = s := by injection h2
                    exact ⟨sid, ma, by simp, hma, hcond.1, hcond.2⟩
                  · rw [if_neg hcond] at h2
                    exact absurd h2 (by simp)

theorem hasMatchingEntry_eq_isSome :
    ∀ (raw : List (String × PimValue)) (lin cid : String),
    hasMatchingEntry raw lin cid = (lastMatchingSpace raw lin cid).isSome
  | [], _, _ => rfl
  | (sid, v) :: rest, lin, cid => by
      rw [lastMatchingSpace]
      have ih := hasMatchingEntry_eq_isSome rest lin cid
      unfold hasMatchingEntry at ih ⊢
      rw [List.any_cons, ih]
      cases lastMatchingSpace rest lin cid <;> simp [Bool.or_comm]

/-- When no payload entry matches, the structured lookup misses. -/
theorem structuredLookup_eq_none_of_no_match (raw : List (String × PimValue))
    (lin cid : String) (h : hasMatchingEntry raw lin cid = false) :
    lookupD (pimGroup (_make_structured_pim_data raw) lin) cid = none := by
  have h2 := hasMatchingEntry_eq_isSome raw lin cid
  rw [h] at h2
  have h3 : lastMatchingSpace raw lin cid = none := by
    cases hl : lastMatchingSpace raw lin cid with
    | none => rfl
    | some t => rw [hl] at h2; exact absurd h2.symm (by simp)
  have h4 := structuredLookup_make raw lin cid
  rw [h3] at h4
  exact h4

theorem isSome_lookupD_dictSet {β : Type} (m : List (String × β)) (k k' : String)
    (v : β) (h : (lookupD m k').isSome = true) :
    (lookupD (dictSet m k v) k').isSome = true := by
  by_cases hk : k' = k
  · subst hk
    rw [lookupD_dictSet_self]
    rfl
  · rw [lookupD_dictSet_ne _ _ _ _ hk]
    exact h

/-! Frame lemmas: which state fields each cache operation leaves alone. -/

theorem ensure_frame (data_file : DataFile) (st : CacheState) :
    (_ensure_file_version_in_results data_file st).gen_calls = st.gen_calls ∧
    (_ensure_file_version_in_results data_file st).fresh_computes = st.fresh_computes ∧
    (_ensure_file_version_in_results data_file st).collection_id = st.collection_id ∧
    (_ensure_file_version_in_results data_file st).disk = st.disk := by
  unfold _ensure_file_version_in_results
  split <;> exact ⟨rfl, rfl, rfl, rfl⟩

theorem refresh_frame (home version_id : String) (info : DesignInfo)
    (data_file : DataFile) (st : CacheState) :
    (_refresh_design_info_result home version_id info data_file st).gen_calls =
      st.gen_calls ∧
    (_refresh_design_info_result home version_id info data_file st).fresh_computes =
      st.fresh_computes ∧
    (_refresh_design_info_result home version_id info data_file st).collection_id =
      st.collection_id ∧
    (_refresh_design_info_result home version_id info data_file st).results =
      dictSet st.results version_id
        (updateFreshProperties info (_get_fresh_file_data_properties data_file)) :=
  ⟨rfl, rfl, rfl, rfl⟩

theorem step_frame (design_version_id : String)
    (pim_data : List (String × List (String × Space))) (st : CacheState)
    (component : Component) :
    (_generate_component_info_step design_version_id pim_data st component).gen_calls =
      st.gen_calls ∧
    (_generate_component_info_step design_version_id pim_data st component).fresh_computes =
      st.fresh_computes ∧
    (_generate_component_info_step design_version_id pim_data st component).collection_id =
      st.collection_id ∧
    (_generate_component_info_step design_version_id pim_data st component).disk =
      st.disk := by
  unfold _generate_component_info_step _ensure_file_version_in_results
  dsimp only
  split <;> split <;> exact ⟨rfl, rfl, rfl, rfl⟩

theorem fold_frame (design_version_id : String)
    (pim_data : List (String × List (String × Space))) :
    ∀ (cs : List Component) (st : CacheState),
    ((cs.foldl (_generate_component_info_step design_version_id pim_data) st).gen_calls =
      st.gen_calls) ∧
    ((cs.foldl (_generate_component_info_step design_version_id pim_data) st).fresh_computes =
      st.fresh_computes) ∧
    ((cs.foldl (_generate_component_info_step design_version_id pim_data) st).collection_id =
      st.collection_id) ∧
    ((cs.foldl (_generate_component_info_step design_version_id pim_data) st).disk =
      st.disk)
  | [], st => ⟨rfl, rfl, rfl, rfl⟩
  | c :: cs, st => by
      rw [List.foldl_cons]
      have hs := step_frame design_version_id pim_data st c
      have ih := fold_frame design_version_id pim_data cs
        (_generate_component_info_step design_version_id pim_data st c)
      exact ⟨ih.1.trans hs.1, ih.2.1.trans hs.2.1, ih.2.2.1.trans hs.2.2.1,
        ih.2.2.2.trans hs.2.2.2⟩

theorem write_results_frame (home : String) :
    ∀ (entries : List (String × DesignInfo)) (st : CacheState),
    ((entries.foldl (fun acc p => _write_one_json_object home p.2 p.1 acc) st).gen_calls =
      st.gen_calls) ∧
    ((entries.foldl (fun acc p => _write_one_json_object home p.2 p.1 acc) st).fresh_computes =
      st.fresh_computes) ∧
    ((entries.foldl (fun acc p => _write_one_json_object home p.2 p.1 acc) st).collection_id =
      st.collection_id) ∧
    ((entries.foldl (fun acc p => _write_one_json_object home p.2 p.1 acc) st).results =
      st.results)
  | [], st => ⟨rfl, rfl, rfl, rfl⟩
  | p :: ps, st => by
      rw [List.foldl_cons]
      have ih := write_results_frame home ps (_write_one_json_object home p.2 p.1 st)
      exact ⟨ih.1, ih.2.1, ih.2.2.1, ih.2.2.2⟩

theorem write_results_frame_st (home : String) (st : CacheState) :
    (_write_results home st).gen_calls = st.gen_calls ∧
    (_write_results home st).fresh_computes = st.fresh_computes ∧
    (_write_results home st).collection_id = st.collection_id ∧
    (_write_results home st).results = st.results := by
  unfold _write_results
  exact write_results_frame home st.results st

theorem gen_component_info_frame (design_version_id : String) (design : Design)
    (pim_data : List (String × List (String × Space))) (st : CacheState) :
    (_generate_component_info_for_design design_version_id design pim_data st).gen_calls =
      st.gen_calls ∧
    (_generate_component_info_for_design design_version_id design pim_data st).fresh_computes =
      st.fresh_computes ∧
    (_generate_component_info_for_design design_version_id design pim_data st).collection_id =
      st.collection_id ∧
    (_generate_component_info_for_design design_version_id design pim_data st).disk =
      st.disk := by
  unfold _generate_component_info_for_design
  exact fold_frame design_version_id pim_data design.allComponents st

/-- Evaluation of _generate_design_info when the disk cache has the
version file. -/
theorem generate_disk_hit (home activeColl : String) (design : Design)
    (st : CacheState) (dinfo : DesignInfo)
    (hdisk : _read_versions_file home design.dataFile.versionId st = some dinfo) :
    _generate_design_info home activeColl design st =
      _refresh_design_info_result home design.dataFile.versionId dinfo
        design.dataFile { st with gen_calls := st.gen_calls + 1 } := by
  unfold _generate_design_info
  have hread : _read_versions_file home design.dataFile.versionId
      { st with gen_calls := st.gen_calls + 1 } = some dinfo := hdisk
  simp [CACHE_RESULTS, hread]

/-- Evaluation of _generate_design_info when the disk cache misses: the
fresh recomputation pipeline runs and every results entry is written
back out. -/
theorem generate_disk_miss (home activeColl : String) (design : Design)
    (st : CacheState)
    (hdisk : _read_versions_file home design.dataFile.versionId st = none) :
    _generate_design_info home activeColl design st =
      _write_results home
        (_generate_component_info_for_design design.dataFile.versionId design
          (_make_structured_pim_data design.rawPim)
          (_ensure_file_version_in_results design.dataFile
            (preGenState activeColl st))) := by
  unfold _generate_design_info preGenState
  have hread : _read_versions_file home design.dataFile.versionId
      { st with gen_calls := st.gen_calls + 1 } = none := hdisk
  simp [CACHE_RESULTS, hread]

/-- _generate_design_info increments the ghost call counter by one and
leaves no other trace on it. -/
theorem generate_gen_calls (home activeColl : String) (design : Design)
    (st : CacheState) :
    (_generate_design_info home activeColl design st).gen_calls = st.gen_calls + 1 := by
  cases hdisk : _read_versions_file home design.dataFile.versionId st with
  | some dinfo =>
      rw [generate_disk_hit home activeColl design st dinfo hdisk]
      exact (refresh_frame home design.dataFile.versionId dinfo design.dataFile _).1
  | none =>
      rw [generate_disk_miss home activeColl design st hdisk]
      rw [(write_results_frame_st home _).1, (gen_component_info_frame _ _ _ _).1,
        (ensure_frame _ _).1]
      rfl

/-- The fresh-recomputation ghost counter moves exactly on the branch that
recomputes: unchanged on a disk hit, incremented once on a miss. -/
theorem generate_fresh_computes (home activeColl : String) (design : Design)
    (st : CacheState) :
    (_generate_design_info home activeColl design st).fresh_computes =
      (if (_read_versions_file home design.dataFile.versionId st).isSome
       then st.fresh_computes else st.fresh_computes + 1) := by
  cases hdisk : _read_versions_file home design.dataFile.versionId st with
  | some dinfo =>
      rw [generate_disk_hit home activeColl design st dinfo hdisk]
      simp only [Option.isSome_some, if_true]
      exact (refresh_frame home design.dataFile.versionId dinfo design.dataFile _).2.1
  | none =>
      rw [generate_disk_miss home activeColl design st hdisk]
      simp only [Option.isSome_none, Bool.false_eq_true, if_false]
      rw [(write_results_frame_st home _).2.1, (gen_component_info_frame _ _ _ _).2.1,
        (ensure_frame _ _).2.1]
      rfl

theorem isSome_lookupD_modifyEntry {β : Type} (m : List (String × β)) (k k' : String)
    (f : β → β) (h : (lookupD m k').isSome = true) :
    (lookupD (modifyEntry m k f) k').isSome = true := by
  by_cases hk : k' = k
  · subst hk
    rw [lookupD_modifyEntry_self]
    cases hl : lookupD m k'
    · rw [hl] at h
      exact absurd h (by simp)
    · rfl
  · rw [lookupD_modifyEntry_ne _ _ _ _ hk]
    exact h

theorem ensure_results_monotone (data_file : DataFile) (st : CacheState) (k : String)
    (h : (lookupD st.results k).isSome = true) :
    (lookupD (_ensure_file_version_in_results data_file st).results k).isSome = true := by
  unfold _ensure_file_version_in_results
  split
  · exact h
  · exact isSome_lookupD_dictSet _ _ _ _ h

theorem ensure_self_isSome (data_file : DataFile) (st : CacheState) :
    (lookupD (_ensure_file_version_in_results data_file st).results
      data_file.versionId).isSome = true := by
  unfold _ensure_file_version_in_results
  split
  · next hcond => exact hcond
  · rw [lookupD_dictSet_self]
    rfl

theorem step_results_monotone (design_version_id : String)
    (pim_data : List (String × List (String × Space))) (st : CacheState)
    (component : Component) (k : String)
    (h : (lookupD st.results k).isSome = true) :
    (lookupD (_generate_component_info_step design_version_id pim_data st
      component).results k).isSome = true := by
  unfold _generate_component_info_step
  dsimp only
  split
  · exact ensure_results_monotone component.parentFile st k h
  · apply isSome_lookupD_modifyEntry
    apply isSome_lookupD_modifyEntry
    exact ensure_results_monotone component.parentFile st k h

theorem fold_results_monotone (design_version_id : String)
    (pim_data : List (String × List (String × Space))) :
    ∀ (cs : List Component) (st : CacheState) (k : String),
    (lookupD st.results k).isSome = true →
    (lookupD (cs.foldl (_generate_component_info_step design_version_id pim_data)
      st).results k).isSome = true
  | [], _, _, h => h
  | c :: cs, st, k, h => by
      rw [List.foldl_cons]
      exact fold_results_monotone design_version_id pim_data cs _ k
        (step_results_monotone design_version_id pim_data st c k h)

theorem gen_component_info_results_monotone (design_version_id : String)
    (design : Design) (pim_data : List (String × List (String × Space)))
    (st : CacheState) (k : String) (h : (lookupD st.results k).isSome = true) :
    (lookupD (_generate_component_info_for_design design_version_id design pim_data
      st).results k).isSome = true := by
  unfold _generate_component_info_for_design
  exact fold_results_monotone design_version_id pim_data design.allComponents st k h

/-- _generate_design_info never discards a results entry: it inserts and
overwrites in place. -/
theorem generate_results_monotone (home activeColl : String) (design : Design)
    (st : CacheState) (k : String) (h : (lookupD st.results k).isSome = true) :
    (lookupD (_generate_design_info home activeColl design st).results k).isSome = true := by
  cases hdisk : _read_versions_file home design.dataFile.versionId st with
  | some dinfo =>
      rw [generate_disk_hit home activeColl design st dinfo hdisk]
      rw [(refresh_frame home design.dataFile.versionId dinfo design.dataFile _).2.2.2]
      exact isSome_lookupD_dictSet _ _ _ _ h
  | none =>
      rw [generate_disk_miss home activeColl design st hdisk]
      rw [(write_results_frame_st home _).2.2.2]
      apply gen_component_info_results_monotone
      exact ensure_results_monotone design.dataFile (preGenState activeColl st) k h

/-- After _generate_design_info the design's own version id is present in
the results dict (on a disk hit the refresh stores it, on a miss the
ensure step inserts it). -/
theorem generate_design_key_isSome (home activeColl : String) (design : Design)
    (st : CacheState) :
    (lookupD (_generate_design_info home activeColl design st).results
      design.dataFile.versionId).isSome = true := by
  cases hdisk : _read_versions_file home design.dataFile.versionId st with
  | some dinfo =>
      rw [generate_disk_hit home activeColl design st dinfo hdisk]
      rw [(refresh_frame home design.dataFile.versionId dinfo design.dataFile _).2.2.2]
      rw [lookupD_dictSet_self]
      rfl
  | none =>
      rw [generate_disk_miss home activeColl design st hdisk]
      rw [(write_results_frame_st home _).2.2.2]
      apply gen_component_info_results_monotone
      exact ensure_self_isSome design.dataFile (preGenState activeColl st)

/-- Evaluation of _make_fusion_data_component_id on a successful, truthy
lookup. -/
theorem make_component_id_of_lookup (coll cid : String)
    (g : List (String × Space)) (s : Space) (h : lookupD g cid = some s)
    (ht : space_truthy s = true) :
    _make_fusion_data_component_id coll cid g =
      _make_url_safe_base64_encoded_string
        ("comp~" ++ coll ++ "~" ++ _get_asset_id s ++ "~~") := by
  unfold _make_fusion_data_component_id
  rw [h]
  simp [ht]

/-- Evaluation of _make_fusion_data_component_version_id on a successful,
truthy lookup. -/
theorem make_version_id_of_lookup (coll cid : String)
    (g : List (String × Space)) (s : Space) (h : lookupD g cid = some s)
    (ht : space_truthy s = true) :
    _make_fusion_data_component_version_id coll cid g =
      _make_url_safe_base64_encoded_string
        ("comp~" ++ coll ++ "~" ++ _get_asset_id s ++ "~" ++ _get_snapshot_id s) := by
  unfold _make_fusion_data_component_version_id
  rw [h]
  simp [ht]

/-- C3: _make_url_safe_base64_encoded_string is deterministic on every
ASCII string, its output carries no '=' padding character, and the input
string is recovered by URL-safe base64 decoding after re-appending the
stripped padding. -/
theorem urlsafe_base64_deterministic_padfree_reversible (s : String)
    (h : ∀ c ∈ s.data, c.toNat < 128) :
    _make_url_safe_base64_encoded_string s = _make_url_safe_base64_encoded_string s ∧
    '=' ∉ (_make_url_safe_base64_encoded_string s).data ∧
    b64DecodeToString (padB64String (_make_url_safe_base64_encoded_string s)) = some s := by
  refine ⟨rfl, ?_, ?_⟩
  · intro hmem
    have hmem2 : '=' ∈ rstripPad (b64EncodeBytes (s.data.map Char.toNat)) := hmem
    rw [rstripPad_b64EncodeBytes] at hmem2
    obtain ⟨n, hn⟩ := mem_b64StrippedEncode _ '=' hmem2
    exact b64Char_ne_pad n hn.symm
  · have hb : ∀ b ∈ s.data.map Char.toNat, b < 256 := by
      intro b hbm
      simp only [List.mem_map] at hbm
      obtain ⟨c, hc, rfl⟩ := hbm
      have := h c hc
      omega
    show (b64DecodeBytes (padB64Chars (rstripPad
        (b64EncodeBytes (s.data.map Char.toNat))))).map
        (fun bs => String.mk (bs.map Char.ofNat)) = some s
    rw [rstripPad_b64EncodeBytes, padB64Chars_b64StrippedEncode,
      b64DecodeBytes_b64EncodeBytes _ hb]
    show some (String.mk ((s.data.map Char.toNat).map Char.ofNat)) = some s
    rw [List.map_map]
    have hmap : s.data.map (Char.ofNat ∘ Char.toNat) = s.data.map id :=
      List.map_congr_left fun c _ => Char.ofNat_toNat c
    rw [hmap, List.map_id]

/-- Witness for C3 at the ASCII string abc. -/
theorem urlsafe_base64_deterministic_padfree_reversible_witness :
    (∀ c ∈ ("abc" : String).data, c.toNat < 128) ∧
    (_make_url_safe_base64_encoded_string "abc" = _make_url_safe_base64_encoded_string "abc" ∧
     '=' ∉ (_make_url_safe_base64_encoded_string "abc").data ∧
     b64DecodeToString (padB64String (_make_url_safe_base64_encoded_string "abc")) = some "abc") :=
  ⟨by decide, urlsafe_base64_deterministic_padfree_reversible "abc" (by decide)⟩

/-- C2: when the PIM payload has no model-asset entry whose lineage id and
f3d component id match the component, both derived identifiers are the
sentinel failure string (the embedded functions are total, so no exception
arises), and a non-sentinel result implies such a matching entry exists. -/
theorem missing_pim_entry_yields_sentinel (raw : List (String × PimValue))
    (lin cid coll : String) :
    (hasMatchingEntry raw lin cid = false →
      _make_fusion_data_component_id coll cid
        (pimGroup (_make_structured_pim_data raw) lin) = "Failed to get ID" ∧
      _make_fusion_data_component_version_id coll cid
        (pimGroup (_make_structured_pim_data raw) lin) = "Failed to get ID") ∧
    (_make_fusion_data_component_id coll cid
        (pimGroup (_make_structured_pim_data raw) lin) ≠ "Failed to get ID" →
      hasMatchingEntry raw lin cid = true) := by
  constructor
  · intro h
    have hnone := structuredLookup_eq_none_of_no_match raw lin cid h
    constructor
    · unfold _make_fusion_data_component_id
      rw [hnone]
    · unfold _make_fusion_data_component_version_id
      rw [hnone]
  · intro h
    cases hm : hasMatchingEntry raw lin cid with
    | true => rfl
    | false =>
        exfalso
        have hnone := structuredLookup_eq_none_of_no_match raw lin cid hm
        apply h
        unfold _make_fusion_data_component_id
        rw [hnone]

/-- Witness for C2 at the empty payload. -/
theorem missing_pim_entry_yields_sentinel_witness :
    (hasMatchingEntry [] "lin1" "cx" = false →
      _make_fusion_data_component_id "c" "cx"
        (pimGroup (_make_structured_pim_data []) "lin1") = "Failed to get ID" ∧
      _make_fusion_data_component_version_id "c" "cx"
        (pimGroup (_make_structured_pim_data []) "lin1") = "Failed to get ID") ∧
    (_make_fusion_data_component_id "c" "cx"
        (pimGroup (_make_structured_pim_data [])  "lin1") ≠ "Failed to get ID" →
      hasMatchingEntry [] "lin1" "cx" = true) :=
  missing_pim_entry_yields_sentinel [] "lin1" "cx" "c"

/-- C1: the lookup built by _make_structured_pim_data maps the component
id, inside the group keyed by the parent file's wipLineageUrn, to exactly
the unique payload space whose modelAsset carries that f3dComponentId;
_make_fusion_data_component_version_id encodes exactly that space's
modelAsset id and snapshot id pair; and for a payload without such an
entry the result is the sentinel string. -/
theorem structured_pim_lookup_resolves_unique_space
    (raw : List (String × PimValue)) (lin cid coll : String) (s : Space)
    (ma : ModelAsset) (hs : s.modelAsset = some ma)
    (hlin : ma.wipLineageUrn = lin) (hcid : ma.f3dComponentId = cid)
    (hmem : ∃ sid, (sid, PimValue.space s) ∈ raw)
    (huniq : ∀ s' sid', (sid', PimValue.space s') ∈ raw →
      ∀ ma', s'.modelAsset = some ma' → ma'.wipLineageUrn = lin →
      ma'.f3dComponentId = cid → s' = s) :
    structuredLookup (_make_structured_pim_data raw) lin cid = some s ∧
    _make_fusion_data_component_version_id coll cid
        (pimGroup (_make_structured_pim_data raw) lin) =
      _make_url_safe_base64_encoded_string
        ("comp~" ++ coll ++ "~" ++ ma.id ++ "~" ++ _get_snapshot_id s) ∧
    (∀ raw2 : List (String × PimValue), hasMatchingEntry raw2 lin cid = false →
      _make_fusion_data_component_version_id coll cid
        (pimGroup (_make_structured_pim_data raw2) lin) = "Failed to get ID") := by
  have hmatch : hasMatchingEntry raw lin cid = true := by
    obtain ⟨sid, hsid⟩ := hmem
    unfold hasMatchingEntry
    rw [List.any_eq_true]
    refine ⟨(sid, PimValue.space s), hsid, ?_⟩
    simp only [spaceMatches, hs]
    rw [if_pos ⟨hlin, hcid⟩]
    rfl
  have hisSome : (lastMatchingSpace raw lin cid).isSome = true := by
    rw [← hasMatchingEntry_eq_isSome]
    exact hmatch
  obtain ⟨t, ht⟩ := Option.isSome_iff_exists.mp hisSome
  obtain ⟨sid', ma', htmem, htma, h1, h2⟩ := lastMatchingSpace_sound raw lin cid t ht
  have hts : t = s := huniq t sid' htmem ma' htma h1 h2
  subst hts
  have hlook : structuredLookup (_make_structured_pim_data raw) lin cid = some t := by
    rw [structuredLookup_make]
    exact ht
  refine ⟨hlook, ?_, ?_⟩
  · unfold structuredLookup at hlook
    have htruthy : space_truthy t = true := by
      unfold space_truthy
      rw [hs]
      rfl
    have hasset : _get_asset_id t = ma.id := by
      unfold _get_asset_id
      rw [hs]
    rw [make_version_id_of_lookup coll cid _ t hlook htruthy, hasset]
  · intro raw2 h2m
    have hnone := structuredLookup_eq_none_of_no_match raw2 lin cid h2m
    unfold _make_fusion_data_component_version_id
    rw [hnone]

/-- Witness for C1 at a one-entry payload. -/
theorem structured_pim_lookup_resolves_unique_space_witness :
    (∃ sid, (sid, PimValue.space sampleSpace) ∈ sampleRaw) ∧
    structuredLookup (_make_structured_pim_data sampleRaw) "lin1" "cx" = some sampleSpace ∧
    _make_fusion_data_component_version_id "c" "cx"
        (pimGroup (_make_structured_pim_data sampleRaw) "lin1") =
      _make_url_safe_base64_encoded_string
        ("comp~" ++ "c" ++ "~" ++ sampleAsset.id ++ "~" ++ _get_snapshot_id sampleSpace) ∧
    (∀ raw2 : List (String × PimValue), hasMatchingEntry raw2 "lin1" "cx" = false →
      _make_fusion_data_component_version_id "c" "cx"
        (pimGroup (_make_structured_pim_data raw2) "lin1") = "Failed to get ID") := by
  refine ⟨⟨"sp1", by simp [sampleRaw]⟩, ?_⟩
  refine structured_pim_lookup_resolves_unique_space sampleRaw "lin1" "cx" "c"
    sampleSpace sampleAsset rfl rfl rfl ⟨"sp1", by simp [sampleRaw]⟩ ?_
  intro s' sid' hmem' ma' hma' hlin' hcid'
  simp only [sampleRaw, List.mem_singleton] at hmem'
  have h2 : PimValue.space s' = PimValue.space sampleSpace := congrArg Prod.snd hmem'
  injection h2

/-- C10 counterexample: at a concrete resolvable entry, ComponentId is not
the ComponentVersionId computed from the same entry with the snapshot id
replaced by the empty string (the ComponentId composite ends in two tilde
characters, the empty-snapshot composite in one). -/
theorem component_id_empty_snapshot_counterexample :
    _make_fusion_data_component_id "c" "cx" [("cx", sampleSpace)] ≠
      _make_fusion_data_component_version_id "c" "cx"
        [("cx", { sampleSpace with snapshotId := some "" })] := by decide

/-- C10 amended: for every component with a matching entry, ComponentId
encodes comp~{collection_id}~{asset_id}~~ and equals the
ComponentVersionId derived from the same entry with the snapshot id
replaced by the single-character tilde string (not the empty string),
while ComponentVersionId encodes
comp~{collection_id}~{asset_id}~{snapshot_id}. -/
theorem component_id_tilde_snapshot_relation (g : List (String × Space))
    (cid coll : String) (s : Space) (hlook : lookupD g cid = some s)
    (htruthy : space_truthy s = true) :
    _make_fusion_data_component_id coll cid g =
      _make_url_safe_base64_encoded_string
        ("comp~" ++ coll ++ "~" ++ _get_asset_id s ++ "~~") ∧
    _make_fusion_data_component_version_id coll cid g =
      _make_url_safe_base64_encoded_string
        ("comp~" ++ coll ++ "~" ++ _get_asset_id s ++ "~" ++ _get_snapshot_id s) ∧
    _make_fusion_data_component_id coll cid g =
      _make_fusion_data_component_version_id coll cid
        (dictSet g cid { s with snapshotId := some "~" }) := by
  have h1 := make_component_id_of_lookup coll cid g s hlook htruthy
  have h2 := make_version_id_of_lookup coll cid g s hlook htruthy
  refine ⟨h1, h2, ?_⟩
  rw [h1]
  have htruthy2 : space_truthy { s with snapshotId := some "~" } = true := by
    unfold space_truthy
    simp
  rw [make_version_id_of_lookup coll cid _ { s with snapshotId := some "~" }
    (lookupD_dictSet_self g cid _) htruthy2]
  have hasset : _get_asset_id { s with snapshotId := some "~" } = _get_asset_id s := rfl
  have hsnap : _get_snapshot_id { s with snapshotId := some "~" } = "~" := rfl
  rw [hasset, hsnap]
  have hstr : ("comp~" ++ coll ++ "~" ++ _get_asset_id s ++ "~~") =
      ("comp~" ++ coll ++ "~" ++ _get_asset_id s ++ "~" ++ "~") := by
    have h8 : ("~~" : String) = "~" ++ "~" := rfl
    rw [h8, ← String.append_assoc]
  rw [hstr]

theorem filter_key_eq_nil {β : Type} (m : List (String × β)) (k : String)
    (h : k ∉ m.map Prod.fst) : m.filter (fun p => p.1 = k) = [] := by
  induction m with
  | nil => rfl
  | cons p rest ih =>
      simp only [List.map_cons, List.mem_cons] at h
      push_neg at h
      have hne : ¬ (p.1 = k) := fun hh => h.1 hh.symm
      rw [List.filter_cons]
      simp [hne, ih h.2]

theorem dictSet_cons_self {β : Type} (k : String) (v1 v : β) (rest : List (String × β)) :
    dictSet ((k, v1) :: rest) k v = (k, v) :: rest := by simp [dictSet]

theorem dictSet_cons_ne {β : Type} (k1 k : String) (hk : k1 ≠ k) (v1 v : β)
    (rest : List (String × β)) :
    dictSet ((k1, v1) :: rest) k v = (k1, v1) :: dictSet rest k v := by
  simp [dictSet, hk]

theorem count_key_dictSet {β : Type} (m : List (String × β)) (k : String) (v : β)
    (h : (m.map Prod.fst).Nodup) :
    ((dictSet m k v).filter (fun p => p.1 = k)).length = 1 := by
  induction m with
  | nil => simp [dictSet]
  | cons p rest ih =>
      obtain ⟨k1, v1⟩ := p
      simp only [List.map_cons, List.nodup_cons] at h
      by_cases hk : k1 = k
      · subst hk
        rw [dictSet_cons_self, List.filter_cons]
        rw [filter_key_eq_nil rest k1 h.1]
        simp
      · rw [dictSet_cons_ne k1 k hk, List.filter_cons]
        simp [hk, ih h.2]

theorem mem_keys_dictSet {β : Type} (m : List (String × β)) (k k' : String) (v : β)
    (h : k' ∈ (dictSet m k v).map Prod.fst) : k' ∈ m.map Prod.fst ∨ k' = k := by
  induction m with
  | nil =>
      simp only [dictSet, List.map_cons, List.map_nil, List.mem_singleton] at h
      exact Or.inr h
  | cons p rest ih =>
      obtain ⟨k1, v1⟩ := p
      by_cases hk : k1 = k
      · subst hk
        rw [dictSet_cons_self] at h
        simp only [List.map_cons, List.mem_cons] at h
        rcases h with h | h
        · exact Or.inr h
        · exact Or.inl (by simp [h])
      · rw [dictSet_cons_ne k1 k hk] at h
        simp only [List.map_cons, List.mem_cons] at h
        rcases h with h | h
        · exact Or.inl (by simp [h])
        · rcases ih h with h2 | h2
          · exact Or.inl (by simp [h2])
          · exact Or.inr h2

theorem nodup_keys_dictSet {β : Type} (m : List (String × β)) (k : String) (v : β)
    (h : (m.map Prod.fst).Nodup) : ((dictSet m k v).map Prod.fst).Nodup := by
  induction m with
  | nil => simp [dictSet]
  | cons p rest ih =>
      obtain ⟨k1, v1⟩ := p
      simp only [List.map_cons, List.nodup_cons] at h
      by_cases hk : k1 = k
      · subst hk
        rw [dictSet_cons_self]
        simp only [List.map_cons, List.nodup_cons]
        exact ⟨h.1, h.2⟩
      · rw [dictSet_cons_ne k1 k hk]
        simp only [List.map_cons, List.nodup_cons]
        refine ⟨?_, ih h.2⟩
        intro hmem
        rcases mem_keys_dictSet rest k k1 v hmem with h2 | h2
        · exact h.1 h2
        · exact hk h2

/-- Witness for the amended C10 at a concrete resolvable entry. -/
theorem component_id_tilde_snapshot_relation_witness :
    lookupD [("cx", sampleSpace)] "cx" = some sampleSpace ∧
    (_make_fusion_data_component_id "c" "cx" [("cx", sampleSpace)] =
      _make_url_safe_base64_encoded_string
        ("comp~" ++ "c" ++ "~" ++ _get_asset_id sampleSpace ++ "~~") ∧
    _make_fusion_data_component_version_id "c" "cx" [("cx", sampleSpace)] =
      _make_url_safe_base64_encoded_string
        ("comp~" ++ "c" ++ "~" ++ _get_asset_id sampleSpace ++ "~" ++
          _get_snapshot_id sampleSpace) ∧
    _make_fusion_data_component_id "c" "cx" [("cx", sampleSpace)] =
      _make_fusion_data_component_version_id "c" "cx"
        (dictSet [("cx", sampleSpace)] "cx"
          { sampleSpace with snapshotId := some "~" })) :=
  ⟨by decide, component_id_tilde_snapshot_relation [("cx", sampleSpace)] "cx" "c"
    sampleSpace (by decide) (by decide)⟩

/-- C6: the refresh performed on a cache read overwrites only the
FolderId, ProjectId and HubId fields with the live data-file values;
Name, DesignFileId, DesignFileVersionId, Components and AllComponents of
the cached record stay untouched, and the refreshed record is exactly
what _refresh_design_info_result stores under the version id. -/
theorem refresh_updates_only_fresh_properties (home version_id : String)
    (info : DesignInfo) (data_file : DataFile) (st : CacheState) :
    (updateFreshProperties info (_get_fresh_file_data_properties data_file)).Name = info.Name ∧
    (updateFreshProperties info (_get_fresh_file_data_properties data_file)).DesignFileId =
      info.DesignFileId ∧
    (updateFreshProperties info (_get_fresh_file_data_properties data_file)).DesignFileVersionId =
      info.DesignFileVersionId ∧
    (updateFreshProperties info (_get_fresh_file_data_properties data_file)).Components =
      info.Components ∧
    (updateFreshProperties info (_get_fresh_file_data_properties data_file)).AllComponents =
      info.AllComponents ∧
    (updateFreshProperties info (_get_fresh_file_data_properties data_file)).FolderId =
      data_file.folderId ∧
    (updateFreshProperties info (_get_fresh_file_data_properties data_file)).ProjectId =
      data_file.projectId ∧
    (updateFreshProperties info (_get_fresh_file_data_properties data_file)).HubId =
      data_file.hubId ∧
    lookupD (_refresh_design_info_result home version_id info data_file st).results
        version_id =
      some (updateFreshProperties info (_get_fresh_file_data_properties data_file)) := by
  refine ⟨rfl, rfl, rfl, rfl, rfl, rfl, rfl, rfl, ?_⟩
  rw [(refresh_frame home version_id info data_file st).2.2.2]
  exact lookupD_dictSet_self _ _ _

/-- C7: the disk cache keeps exactly one JSON file per design-file
version id: the write path is the fixed per-user output directory joined
with the version id in which every ':' is replaced by '~' plus the .json
extension; a write stores the record at that path, and a disk state with
pairwise-distinct paths keeps exactly one entry for it after the write. -/
theorem disk_cache_single_file_per_version (home version_id : String)
    (design_info : DesignInfo) (st : CacheState)
    (h : (st.disk.map Prod.fst).Nodup) :
    (_make_design_version_file_name home version_id =
      json_output_folder home ++
        String.mk (version_id.data.map fun c => if c = ':' then '~' else c) ++ ".json") ∧
    lookupD (_write_one_json_object home design_info version_id st).disk
        (_make_design_version_file_name home version_id) = some design_info ∧
    ((_write_one_json_object home design_info version_id st).disk.filter
        (fun p => p.1 = _make_design_version_file_name home version_id)).length = 1 ∧
    ((_write_one_json_object home design_info version_id st).disk.map Prod.fst).Nodup := by
  refine ⟨rfl, ?_, ?_, ?_⟩
  · exact lookupD_dictSet_self _ _ _
  · exact count_key_dictSet st.disk _ design_info h
  · exact nodup_keys_dictSet st.disk _ design_info h

/-- Witness for C7 at a concrete version id containing ':' and the empty
disk state. -/
theorem disk_cache_single_file_per_version_witness :
    (emptyState.disk.map Prod.fst).Nodup ∧
    ((_make_design_version_file_name "/home/u" "v:1" =
      json_output_folder "/home/u" ++
        String.mk (("v:1" : String).data.map fun c => if c = ':' then '~' else c) ++ ".json") ∧
    lookupD (_write_one_json_object "/home/u" sampleDesignInfo "v:1" emptyState).disk
        (_make_design_version_file_name "/home/u" "v:1") = some sampleDesignInfo ∧
    ((_write_one_json_object "/home/u" sampleDesignInfo "v:1" emptyState).disk.filter
        (fun p => p.1 = _make_design_version_file_name "/home/u" "v:1")).length = 1 ∧
    ((_write_one_json_object "/home/u" sampleDesignInfo "v:1" emptyState).disk.map
        Prod.fst).Nodup) :=
  ⟨by decide, disk_cache_single_file_per_version "/home/u" "v:1" sampleDesignInfo
    emptyState (by decide)⟩

/-- C9: the results dict keeps the invariant that every stored record's
DesignFileVersionId equals its key: _ensure_file_version_in_results
preserves it, _refresh_design_info_result preserves it when handed a
record carrying the version id it is stored under, and the ensure,
refresh and recomputation operations only insert or overwrite entries in
place, never dropping a key. -/
theorem results_key_invariant_preserved (data_file : DataFile)
    (home version_id activeColl : String) (info : DesignInfo) (design : Design)
    (st : CacheState)
    (hinv : ∀ k r, lookupD st.results k = some r → r.DesignFileVersionId = k)
    (hv : info.DesignFileVersionId = version_id) :
    (∀ k r, lookupD (_ensure_file_version_in_results data_file st).results k = some r →
      r.DesignFileVersionId = k) ∧
    (∀ k r, lookupD (_refresh_design_info_result home version_id info data_file
        st).results k = some r → r.DesignFileVersionId = k) ∧
    (∀ k, (lookupD st.results k).isSome = true →
      (lookupD (_ensure_file_version_in_results data_file st).results k).isSome = true ∧
      (lookupD (_refresh_design_info_result home version_id info data_file
        st).results k).isSome = true ∧
      (lookupD (_generate_design_info home activeColl design st).results k).isSome = true) := by
  refine ⟨?_, ?_, ?_⟩
  · intro k r hkr
    unfold _ensure_file_version_in_results at hkr
    split at hkr
    · exact hinv k r hkr
    · dsimp only at hkr
      by_cases hk : k = data_file.versionId
      · subst hk
        rw [lookupD_dictSet_self] at hkr
        obtain rfl : _make_design_info data_file = r := by injection hkr
        rfl
      · rw [lookupD_dictSet_ne _ _ _ _ hk] at hkr
        exact hinv k r hkr
  · intro k r hkr
    rw [(refresh_frame home version_id info data_file st).2.2.2] at hkr
    by_cases hk : k = version_id
    · subst hk
      rw [lookupD_dictSet_self] at hkr
      obtain rfl : updateFreshProperties info (_get_fresh_file_data_properties data_file) = r := by
        injection hkr
      exact hv
    · rw [lookupD_dictSet_ne _ _ _ _ hk] at hkr
      exact hinv k r hkr
  · intro k hk
    refine ⟨ensure_results_monotone data_file st k hk, ?_,
      generate_results_monotone home activeColl design st k hk⟩
    rw [(refresh_frame home version_id info data_file st).2.2.2]
    exact isSome_lookupD_dictSet _ _ _ _ hk

/-- Witness for C9 at the empty state and a concrete record carrying its
version id. -/
theorem results_key_invariant_preserved_witness :
    ((∀ k r, lookupD emptyState.results k = some r → r.DesignFileVersionId = k) ∧
      sampleDesignInfo.DesignFileVersionId = "v:1") ∧
    ((∀ k r, lookupD (_ensure_file_version_in_results sampleFile emptyState).results k =
        some r → r.DesignFileVersionId = k) ∧
    (∀ k r, lookupD (_refresh_design_info_result "h" "v:1" sampleDesignInfo sampleFile
        emptyState).results k = some r → r.DesignFileVersionId = k) ∧
    (∀ k, (lookupD emptyState.results k).isSome = true →
      (lookupD (_ensure_file_version_in_results sampleFile emptyState).results k).isSome = true ∧
      (lookupD (_refresh_design_info_result "h" "v:1" sampleDesignInfo sampleFile
        emptyState).results k).isSome = true ∧
      (lookupD (_generate_design_info "h" "c" sampleDesignNoPim emptyState).results
        k).isSome = true)) :=
  ⟨⟨fun _ _ h => Option.noConfusion h, rfl⟩,
    results_key_invariant_preserved sampleFile "h" "v:1" "c" sampleDesignInfo
      sampleDesignNoPim emptyState (fun _ _ h => Option.noConfusion h) rfl⟩

/-- C4: when no cached ComponentInfo exists for the component's
file-version id, get_fusion_data_ids_for_component performs exactly one
recomputation attempt (_generate_design_info, ghost counter up by one);
if the component id is still unresolvable after that attempt the call
raises the RuntimeError, and run surfaces every such error to the user as
a blocking message box whose text contains the failure information. -/
theorem component_miss_recomputes_once_then_raises (home activeColl : String)
    (component_parent_design : Design) (component : Component) (st : CacheState)
    (hmiss : _get_component_info_from_results_global
      component_parent_design.dataFile.versionId component st = none) :
    ((get_fusion_data_ids_for_component home activeColl component_parent_design
        component st).2.gen_calls = st.gen_calls + 1) ∧
    (_get_component_info_from_results_global component_parent_design.dataFile.versionId
        component (_generate_design_info home activeColl component_parent_design st) = none →
      get_fusion_data_ids_for_component home activeColl component_parent_design
        component st =
        (Except.error ("Could not get Fusion Data API IDs for this Component: " ++
          component.name),
         _generate_design_info home activeColl component_parent_design st)) ∧
    (∀ (active_design : Design) (st0 st1 st2 : CacheState) (dr : DesignInfo) (e : String),
      get_fusion_data_ids_for_design home activeColl active_design st0 =
        (Except.ok dr, st1) →
      get_fusion_data_ids_for_component home activeColl component_parent_design
        component st1 = (Except.error e, st2) →
      run home activeColl active_design
        (SelectionEntity.componentEntity component component_parent_design) st0 =
        (RunOutcome.messageBox ("Failed:\n" ++ e), st2)) := by
  have hg := generate_gen_calls home activeColl component_parent_design st
  refine ⟨?_, ?_, ?_⟩
  · unfold get_fusion_data_ids_for_component
    dsimp only
    rw [hmiss]
    cases h2 : _get_component_info_from_results_global
        component_parent_design.dataFile.versionId component
        (_generate_design_info home activeColl component_parent_design st) with
    | some r => simp only []; exact hg
    | none => simp only []; exact hg
  · intro h2
    unfold get_fusion_data_ids_for_component
    dsimp only
    rw [hmiss, h2]
  · intro active_design st0 st1 st2 dr e hd hc
    unfold run
    rw [hd]
    dsimp only
    rw [hc]

/-- Witness for C4 at the empty cache and a design whose payload cannot
resolve its component. -/
theorem component_miss_recomputes_once_then_raises_witness :
    (_get_component_info_from_results_global "v:1" sampleComponent emptyState = none) ∧
    (_get_component_info_from_results_global "v:1" sampleComponent
      (_generate_design_info "h" "c" sampleDesignNoPim emptyState) = none) ∧
    ((get_fusion_data_ids_for_component "h" "c" sampleDesignNoPim sampleComponent
        emptyState).2.gen_calls = emptyState.gen_calls + 1) ∧
    get_fusion_data_ids_for_component "h" "c" sampleDesignNoPim sampleComponent
        emptyState =
      (Except.error ("Could not get Fusion Data API IDs for this Component: " ++ "Comp1"),
       _generate_design_info "h" "c" sampleDesignNoPim emptyState) :=
  ⟨rfl, by decide,
    (component_miss_recomputes_once_then_raises "h" "c" sampleDesignNoPim
      sampleComponent emptyState rfl).1,
    (component_miss_recomputes_once_then_raises "h" "c" sampleDesignNoPim
      sampleComponent emptyState rfl).2.1 (by decide)⟩

/-- C5: get_fusion_data_ids_for_design reads through the two-level cache
in a fixed order.  On a memory hit it returns the refreshed cached record
with no _generate_design_info call and no recomputation; on a memory miss
with a disk hit, _generate_design_info runs once, refreshes and returns
the disk record, and the fresh recomputation branch stays idle; only when
both levels miss does the fresh recomputation branch run.  The refresh
never touches the cached component lists. -/
theorem design_two_level_cache_order (home activeColl : String) (design : Design)
    (st : CacheState) :
    (∀ info, lookupD st.results design.dataFile.versionId = some info →
      get_fusion_data_ids_for_design home activeColl design st =
        (Except.ok (updateFreshProperties info
            (_get_fresh_file_data_properties design.dataFile)),
         _refresh_design_info_result home design.dataFile.versionId info
           design.dataFile st) ∧
      (updateFreshProperties info (_get_fresh_file_data_properties
        design.dataFile)).Components = info.Components ∧
      (updateFreshProperties info (_get_fresh_file_data_properties
        design.dataFile)).AllComponents = info.AllComponents ∧
      (get_fusion_data_ids_for_design home activeColl design st).2.gen_calls =
        st.gen_calls ∧
      (get_fusion_data_ids_for_design home activeColl design st).2.fresh_computes =
        st.fresh_computes) ∧
    (lookupD st.results design.dataFile.versionId = none →
      ∀ dinfo, _read_versions_file home design.dataFile.versionId st = some dinfo →
      get_fusion_data_ids_for_design home activeColl design st =
        (Except.ok (updateFreshProperties dinfo
            (_get_fresh_file_data_properties design.dataFile)),
         _generate_design_info home activeColl design st) ∧
      (updateFreshProperties dinfo (_get_fresh_file_data_properties
        design.dataFile)).Components = dinfo.Components ∧
      (updateFreshProperties dinfo (_get_fresh_file_data_properties
        design.dataFile)).AllComponents = dinfo.AllComponents ∧
      (get_fusion_data_ids_for_design home activeColl design st).2.gen_calls =
        st.gen_calls + 1 ∧
      (get_fusion_data_ids_for_design home activeColl design st).2.fresh_computes =
        st.fresh_computes) ∧
    (lookupD st.results design.dataFile.versionId = none →
      _read_versions_file home design.dataFile.versionId st = none →
      (get_fusion_data_ids_for_design home activeColl design st).2.gen_calls =
        st.gen_calls + 1 ∧
      (get_fusion_data_ids_for_design home activeColl design st).2.fresh_computes =
        st.fresh_computes + 1) := by
  refine ⟨?_, ?_, ?_⟩
  · intro info hmem
    have hres := (refresh_frame home design.dataFile.versionId info design.dataFile st).2.2.2
    have hlook : lookupD (_refresh_design_info_result home design.dataFile.versionId
        info design.dataFile st).results design.dataFile.versionId =
        some (updateFreshProperties info
          (_get_fresh_file_data_properties design.dataFile)) := by
      rw [hres]
      exact lookupD_dictSet_self _ _ _
    have heq : get_fusion_data_ids_for_design home activeColl design st =
        (Except.ok (updateFreshProperties info
            (_get_fresh_file_data_properties design.dataFile)),
         _refresh_design_info_result home design.dataFile.versionId info
           design.dataFile st) := by
      unfold get_fusion_data_ids_for_design
      simp only [hmem, hlook]
    refine ⟨heq, rfl, rfl, ?_, ?_⟩
    · rw [heq]
      exact (refresh_frame home design.dataFile.versionId info design.dataFile st).1
    · rw [heq]
      exact (refresh_frame home design.dataFile.versionId info design.dataFile st).2.1
  · intro hmem dinfo hdisk
    have hgen := generate_disk_hit home activeColl design st dinfo hdisk
    have hlook : lookupD (_generate_design_info home activeColl design st).results
        design.dataFile.versionId =
        some (updateFreshProperties dinfo
          (_get_fresh_file_data_properties design.dataFile)) := by
      rw [hgen, (refresh_frame home design.dataFile.versionId dinfo design.dataFile _).2.2.2]
      exact lookupD_dictSet_self _ _ _
    have heq : get_fusion_data_ids_for_design home activeColl design st =
        (Except.ok (updateFreshProperties dinfo
            (_get_fresh_file_data_properties design.dataFile)),
         _generate_design_info home activeColl design st) := by
      unfold get_fusion_data_ids_for_design
      simp only [hmem, hlook]
    refine ⟨heq, rfl, rfl, ?_, ?_⟩
    · rw [heq]
      exact generate_gen_calls home activeColl design st
    · rw [heq]
      rw [generate_fresh_computes home activeColl design st, hdisk]
      rfl
  · intro hmem hdisk
    have hkey := generate_design_key_isSome home activeColl design st
    obtain ⟨r, hr⟩ := Option.isSome_iff_exists.mp hkey
    have heq : get_fusion_data_ids_for_design home activeColl design st =
        (Except.ok r, _generate_design_info home activeColl design st) := by
      unfold get_fusion_data_ids_for_design
      dsimp only
      rw [hmem, hr]
    rw [heq]
    constructor
    · exact generate_gen_calls home activeColl design st
    · rw [generate_fresh_computes home activeColl design st, hdisk]
      rfl

/-- Witness for C5 at the empty cache, where both levels miss. -/
theorem design_two_level_cache_order_witness :
    lookupD emptyState.results "v:1" = none ∧
    _read_versions_file "h" "v:1" emptyState = none ∧
    ((get_fusion_data_ids_for_design "h" "c" sampleDesignNoPim emptyState).2.gen_calls =
      emptyState.gen_calls + 1 ∧
     (get_fusion_data_ids_for_design "h" "c" sampleDesignNoPim
       emptyState).2.fresh_computes = emptyState.fresh_computes + 1) :=
  ⟨rfl, rfl,
    (design_two_level_cache_order "h" "c" sampleDesignNoPim emptyState).2.2 rfl rfl⟩

/-- C8 counterexample: at the empty cache, the failing component call
(sentinel-free design but unresolvable component) leaves the results dict
and the disk cache different from what they were before the invocation,
so the invocation is not all-or-nothing. -/
theorem failed_invocation_mutates_cache_counterexample :
    (get_fusion_data_ids_for_component "h" "c" sampleDesignNoPim sampleComponent
      emptyState).1.isOk = false ∧
    (get_fusion_data_ids_for_component "h" "c" sampleDesignNoPim sampleComponent
      emptyState).2.results ≠ emptyState.results ∧
    (get_fusion_data_ids_for_component "h" "c" sampleDesignNoPim sampleComponent
      emptyState).2.disk ≠ emptyState.disk := by decide

/-- C8 amended: a raising invocation performs no rollback: the failing
component call returns exactly the state produced by the recomputation
attempt, in which the design's own version record and every pre-existing
entry of the memory cache persist. -/
theorem failure_keeps_post_generate_state (home activeColl : String)
    (component_parent_design : Design) (component : Component) (st : CacheState)
    (h1 : _get_component_info_from_results_global
      component_parent_design.dataFile.versionId component st = none)
    (h2 : _get_component_info_from_results_global
      component_parent_design.dataFile.versionId component
      (_generate_design_info home activeColl component_parent_design st) = none) :
    get_fusion_data_ids_for_component home activeColl component_parent_design
        component st =
      (Except.error ("Could not get Fusion Data API IDs for this Component: " ++
        component.name),
       _generate_design_info home activeColl component_parent_design st) ∧
    (lookupD (get_fusion_data_ids_for_component home activeColl
        component_parent_design component st).2.results
        component_parent_design.dataFile.versionId).isSome = true ∧
    (∀ k, (lookupD st.results k).isSome = true →
      (lookupD (get_fusion_data_ids_for_component home activeColl
        component_parent_design component st).2.results k).isSome = true) := by
  have heq : get_fusion_data_ids_for_component home activeColl
      component_parent_design component st =
      (Except.error ("Could not get Fusion Data API IDs for this Component: " ++
        component.name),
       _generate_design_info home activeColl component_parent_design st) := by
    unfold get_fusion_data_ids_for_component
    dsimp only
    rw [h1, h2]
  refine ⟨heq, ?_, ?_⟩
  · rw [heq]
    exact generate_design_key_isSome home activeColl component_parent_design st
  · intro k hk
    rw [heq]
    exact generate_results_monotone home activeColl component_parent_design st k hk

/-- Witness for the amended C8 at the empty cache. -/
theorem failure_keeps_post_generate_state_witness :
    (_get_component_info_from_results_global "v:1" sampleComponent emptyState = none) ∧
    (_get_component_info_from_results_global "v:1" sampleComponent
      (_generate_design_info "h" "c" sampleDesignNoPim emptyState) = none) ∧
    get_fusion_data_ids_for_component "h" "c" sampleDesignNoPim sampleComponent
        emptyState =
      (Except.error ("Could not get Fusion Data API IDs for this Component: " ++ "Comp1"),
       _generate_design_info "h" "c" sampleDesignNoPim emptyState) :=
  ⟨rfl, by decide,
    (failure_keeps_post_generate_state "h" "c" sampleDesignNoPim sampleComponent
      emptyState rfl (by decide)).1⟩

end FDU
